import Mathlib

/-!
Shallow embedding of the WhatsApp-bot message dispatch pipeline and
conversation memory manager (src/core/memory.js, src/core/gemini.js,
src/handlers/messageHandler.js, src/handlers/responseHandler.js,
src/handlers/commandHandler.js, src/utils/helpers.js).

Conventions of the embedding:
- JS strings are modelled as Lean `String`/`List Char` (ASCII-faithful).
- JS `Date.now()` is passed in explicitly as a parameter `now : Int`
  (milliseconds); message timestamps are `Int` (unix seconds).
- JS `Map` objects are modelled as functions `String → Option α`
  (`StrMap`), which reproduces the key-uniqueness of `Map` exactly.
- Plain JS objects used as dictionaries (the `wordCount` object in
  `extractKeyTopics`) are modelled as association lists in insertion
  order, with `Object.entries` enumeration order reproduced explicitly
  (array-index keys first, ascending, then string keys in insertion
  order, per the ECMAScript ordinary own-property-key order).
- `Math.random()`-based choices are modelled by a `rnd : Nat` parameter
  (`Math.floor(Math.random() * n)` becomes `rnd % n`).
- Exceptions of the generation capability are modelled by
  `Except Unit String`; all embedded repository functions are total,
  mirroring their own try/catch behaviour.
- Fields that a JS function leaves `undefined` (absent) are modelled by
  `Option` with `none` for absent/null.
-/

namespace WhatsBot

/-! ## Generic string machinery (JS semantics) -/

/-- The character class matched by the JS regex `\s` (ASCII part). -/
def jsWs (c : Char) : Bool :=
  c = ' ' || c = '\t' || c = '\n' || c = '\r' || c = '\x0b' || c = '\x0c'

/-- The character class matched by the JS regex `\w`: `[A-Za-z0-9_]`. -/
def jsWordChar (c : Char) : Bool :=
  ('a' ≤ c && c ≤ 'z') || ('A' ≤ c && c ≤ 'Z') || ('0' ≤ c && c ≤ '9') || c = '_'

/-- The class `[a-zA-Z0-9]` (used by `Helpers.generateConversationId`). -/
def jsAlnum (c : Char) : Bool :=
  ('a' ≤ c && c ≤ 'z') || ('A' ≤ c && c ≤ 'Z') || ('0' ≤ c && c ≤ '9')

/-- JS `String.prototype.trim` on a character list. -/
def jsTrimL (l : List Char) : List Char :=
  ((l.dropWhile jsWs).reverse.dropWhile jsWs).reverse

/-- JS `String.prototype.trim`. -/
def jsTrim (s : String) : String := (jsTrimL s.data).asString

/-- JS `String.prototype.toLowerCase` (ASCII). -/
def jsLower (s : String) : String := (s.data.map Char.toLower).asString

/-- Does `l` start with `pat`? (JS `String.prototype.startsWith`.) -/
def startsL (l pat : List Char) : Bool := l.take pat.length == pat

/-- JS `String.prototype.startsWith`. -/
def jsStarts (s pat : String) : Bool := startsL s.data pat.data

/-- Does `l` contain `pat` as a contiguous sublist?
(JS `String.prototype.includes`.) -/
def hasSubL (pat : List Char) : List Char → Bool
  | [] => pat.isEmpty
  | c :: rest => startsL (c :: rest) pat || hasSubL pat rest

/-- JS `String.prototype.includes`. -/
def jsIncludes (s pat : String) : Bool := hasSubL pat.data s.data

/-- Remove the first occurrence of `pat` (JS `replace` with a string
pattern replaces only the first match). -/
def removeFirstL (pat : List Char) : List Char → List Char
  | [] => []
  | c :: rest =>
    if startsL (c :: rest) pat ∧ pat ≠ [] then (c :: rest).drop pat.length
    else c :: removeFirstL pat rest

/-- JS `split(' ')` (split on the single space character; empty pieces
are kept, and the empty string splits to `[""]`). -/
def splitSpAux : List Char → List Char → List String
  | [], acc => [acc.reverse.asString]
  | c :: rest, acc =>
    if c = ' ' then acc.reverse.asString :: splitSpAux rest []
    else splitSpAux rest (c :: acc)

/-- JS `String.prototype.split(' ')`. -/
def jsSplitSpace (s : String) : List String := splitSpAux s.data []

/-- Maximal runs of non-whitespace characters, in order.  Composed with
the `length > 2` filter below this coincides with JS
`split(/\s+/)` followed by that filter (the possible empty edge pieces
of the JS split are removed by the filter either way). -/
def wsRuns : List Char → List Char → List String
  | [], acc => if acc.isEmpty then [] else [acc.reverse.asString]
  | c :: rest, acc =>
    if jsWs c then
      if acc.isEmpty then wsRuns rest [] else acc.reverse.asString :: wsRuns rest []
    else wsRuns rest (c :: acc)

/-! ## ConversationMemory.extractKeyTopics (src/core/memory.js 540-562) -/

/-- The stop-word set of `extractKeyTopics`, verbatim from the source. -/
def stopWords : List String :=
  ["the", "a", "an", "and", "or", "but", "in", "on", "at", "to", "for",
   "of", "with", "by", "is", "are", "was", "were", "be", "been", "have",
   "has", "had", "do", "does", "did", "will", "would", "could", "should",
   "may", "might", "can", "i", "you", "he", "she", "it", "we", "they",
   "me", "him", "her", "us", "them"]

/-- Embeds `message.body.toLowerCase().replace(/[^\w\s]/g, '').split(/\s+/)
.filter(word => word.length > 2 && !stopWords.has(word))`. -/
def tokenize (body : String) : List String :=
  let cleaned := (body.data.map Char.toLower).filter (fun c => jsWordChar c || jsWs c)
  (wsRuns cleaned []).filter (fun w => w.length > 2 && !(stopWords.contains w))

/-- Embeds `wordCount[word] = (wordCount[word] || 0) + 1` on a JS object
modelled as an insertion-ordered association list. -/
def bumpWord : List (String × Nat) → String → List (String × Nat)
  | [], w => [(w, 1)]
  | (k, n) :: rest, w =>
    if k = w then (k, n + 1) :: rest else (k, n) :: bumpWord rest w

/-- The token stream of a message list, in order (messages with a falsy
body contribute nothing, as does `if (message.body)` in the source,
since `tokenize "" = []`). -/
def allTokens (bodies : List String) : List String :=
  bodies.flatMap tokenize

/-- The `wordCount` object after the two `forEach` loops. -/
def wordCounts (bodies : List String) : List (String × Nat) :=
  (allTokens bodies).foldl bumpWord []

/-- Numeric value of a digit string. -/
def digitsToNat (l : List Char) : Nat :=
  l.foldl (fun n c => n * 10 + (c.toNat - 48)) 0

/-- Is `w` an ECMAScript array-index property key: a canonical decimal
string whose value is below `2^32 - 1`?  Such keys are enumerated first
(ascending) by `Object.entries`. -/
def isArrayIndexKey (w : String) : Bool :=
  match w.data with
  | [] => false
  | c :: cs =>
    (c :: cs).all (fun d => '0' ≤ d && d ≤ '9')
      && (c ≠ '0' || cs.isEmpty)
      && digitsToNat (c :: cs) < 4294967295

/-- Insert into an ascending-by-numeric-value list (array-index keys are
pairwise distinct, so tie order is irrelevant). -/
def insIdxAsc (x : String × Nat) : List (String × Nat) → List (String × Nat)
  | [] => [x]
  | y :: ys =>
    if digitsToNat y.1.data ≤ digitsToNat x.1.data then y :: insIdxAsc x ys
    else x :: y :: ys

/-- Sort array-index entries ascending by numeric value. -/
def sortIdxAsc : List (String × Nat) → List (String × Nat)
  | [] => []
  | x :: xs => insIdxAsc x (sortIdxAsc xs)

/-- The `Object.entries(wordCount)` enumeration order: array-index keys
first, ascending numerically, then the remaining keys in insertion
order. -/
def jsEntriesOrder (l : List (String × Nat)) : List (String × Nat) :=
  sortIdxAsc (l.filter (fun p => isArrayIndexKey p.1))
    ++ l.filter (fun p => !isArrayIndexKey p.1)

/-- Stable insertion for descending count order: an element inserted
into the sorted remainder goes before every entry of equal count,
because it occurs earlier in the enumeration (ES2019 `sort` is
stable). -/
def insCountDesc (x : String × Nat) : List (String × Nat) → List (String × Nat)
  | [] => [x]
  | y :: ys => if y.2 > x.2 then y :: insCountDesc x ys else x :: y :: ys

/-- Stable sort by count, descending: `sort(([,a],[,b]) => b - a)`. -/
def sortCountDesc : List (String × Nat) → List (String × Nat)
  | [] => []
  | x :: xs => insCountDesc x (sortCountDesc xs)

/-- Embeds `ConversationMemory.extractKeyTopics`, as a function of the bodies
of the messages to analyze: build `wordCount`, enumerate its entries in
JS property order, sort stably by count descending, `slice(0, 10)`, and
keep the words. -/
def extractKeyTopics (bodies : List String) : List String :=
  ((sortCountDesc (jsEntriesOrder (wordCounts bodies))).take 10).map Prod.fst

/-! ## Configuration -/

/-- A personality profile entry (read-only lookup, spec §1). -/
structure Personality where
  name : String
  displayName : String
  description : String
deriving DecidableEq

/-- Modelled from the spec: the configuration surface of §6 (the
values live in `config/default.json`, which is not among the sources;
`src/utils/config.js` only merges it with environment variables).  Each
field is one `config.get(...)` key used by the embedded components.
`cmdPfx` is the command prefix `commands.prefix`. -/
structure Config where
  maxContextMessages : Nat
  summarizationThreshold : Nat
  maxResponseLength : Nat
  responseDelay : Int
  personality : String
  autoResponsesEnabled : Bool
  cmdPfx : String
  commandsEnabled : Bool
  availableCommands : List String
  ignoreGroups : Bool
  ignoredContacts : List String
  responseFrequencyLimit : Nat
  personalities : Option (List Personality)

/-- A JS `Map` with string keys. -/
def StrMap (α : Type) := String → Option α

/-- Embeds `Map.prototype.set`. -/
def StrMap.set (m : StrMap α) (k : String) (v : α) : StrMap α :=
  fun k' => if k' = k then some v else m k'

/-- The empty map. -/
def StrMap.empty : StrMap α := fun _ => none

/-! ## Data model (src/core/memory.js) -/

/-- The fields of an inbound message object that
`ConversationMemory.addMessage` reads (`id, from, body, timestamp,
type`); `sender` models the JS field `from` (a Lean keyword) and
`mtype` the JS field `type`. -/
structure MsgData where
  id : String
  sender : String
  body : String
  timestamp : Int
  mtype : String
deriving DecidableEq

/-- A stored conversation message: the pushed object of
`addMessage` (`{id, from, body, timestamp, type, addedAt}`). -/
structure MemMsg where
  id : String
  sender : String
  body : String
  timestamp : Int
  mtype : String
  addedAt : Int
deriving DecidableEq

/-- Embeds the record `{id, messages, createdAt, updatedAt}`. -/
structure Conversation where
  id : String
  messages : List MemMsg
  createdAt : Int
  updatedAt : Int
deriving DecidableEq

/-- A conversation summary (`summarizeConversation`); `timeStart` and
`timeEnd` model `timeRange.start/end`, which are absent (`undefined`)
when the summarized slice is empty (`messagesToSummarize[0]?.timestamp`). -/
structure Summary where
  conversationId : String
  messageCount : Nat
  timeStart : Option Int
  timeEnd : Option Int
  keyTopics : List String
  createdAt : Int
deriving DecidableEq

/-- The in-memory caches of `ConversationMemory` (`this.conversations`
and `this.summaries`; disk persistence is best-effort write-through and
is not modelled). -/
structure MemState where
  conversations : StrMap Conversation
  summaries : StrMap Summary

/-- Fresh memory. -/
def MemState.empty : MemState := ⟨StrMap.empty, StrMap.empty⟩

/-- JS `arr.slice(0, -m)`: everything but the last `m` elements (and
everything but nothing when `m = 0`, since `-0` is `0`). -/
def jsSliceDropLast (l : List MemMsg) (m : Nat) : List MemMsg :=
  if m = 0 then [] else l.take (l.length - m)

/-- JS `arr.slice(-m)`: the last `m` elements (the whole array when
`m = 0`). -/
def jsSliceLast (l : List MemMsg) (m : Nat) : List MemMsg :=
  if m = 0 then l else l.drop (l.length - m)

/-! ## ConversationMemory operations (src/core/memory.js 423-533) -/

/-- The object pushed by `addMessage`. -/
def mkStoredMsg (now : Int) (m : MsgData) : MemMsg :=
  { id := m.id, sender := m.sender, body := m.body,
    timestamp := m.timestamp, mtype := m.mtype, addedAt := now }

/-- Embeds `ConversationMemory.summarizeConversation` (492-533): no-op below
the threshold; otherwise compacts `slice(0, -maxContextMessages)` into
a fresh Summary (replacing any previous one) and retains
`slice(-maxContextMessages)`. -/
def summarizeConversation (cfg : Config) (now : Int) (cid : String)
    (s : MemState) : MemState :=
  match s.conversations cid with
  | none => s
  | some conv =>
    if conv.messages.length < cfg.summarizationThreshold then s
    else
      let toSummarize := jsSliceDropLast conv.messages cfg.maxContextMessages
      let recent := jsSliceLast conv.messages cfg.maxContextMessages
      let summary : Summary :=
        { conversationId := cid,
          messageCount := toSummarize.length,
          timeStart := toSummarize.head?.map (·.timestamp),
          timeEnd := toSummarize.getLast?.map (·.timestamp),
          keyTopics := extractKeyTopics (toSummarize.map (·.body)),
          createdAt := now }
      { conversations := s.conversations.set cid { conv with messages := recent },
        summaries := s.summaries.set cid summary }

/-- Embeds `ConversationMemory.addMessage` (423-463): create the conversation
lazily, append the message, update `updatedAt`, and summarize
synchronously once `messages.length >= summarizationThreshold`. -/
def addMessage (cfg : Config) (now : Int) (cid : String) (m : MsgData)
    (s : MemState) : MemState :=
  let conv : Conversation :=
    match s.conversations cid with
    | none => { id := cid, messages := [], createdAt := now, updatedAt := now }
    | some c => c
  let conv := { conv with messages := conv.messages ++ [mkStoredMsg now m],
                          updatedAt := now }
  let s1 : MemState := { s with conversations := s.conversations.set cid conv }
  if conv.messages.length ≥ cfg.summarizationThreshold then
    summarizeConversation cfg now cid s1
  else s1

/-- The return value of `getConversationContext`; `totalMessages` is
`none` when the field is absent from the returned object (unknown id). -/
structure ConversationContext where
  messages : List MemMsg
  summary : Option Summary
  totalMessages : Option Nat
deriving DecidableEq

/-- Embeds `maxMessages || this.maxContextMessages` (both `null` and `0` are
falsy). -/
def resolveLimit (cfg : Config) (maxMessages : Option Nat) : Nat :=
  match maxMessages with
  | none => cfg.maxContextMessages
  | some m => if m = 0 then cfg.maxContextMessages else m

/-- Embeds `ConversationMemory.getConversationContext` (471-486): for an
unknown id, `{ messages: [], summary: null }` (no `totalMessages`
field); otherwise the last `limit` retained messages, the summary if
any, and `totalMessages = conversation.messages.length`. -/
def getConversationContext (cfg : Config) (s : MemState) (cid : String)
    (maxMessages : Option Nat) : ConversationContext :=
  match s.conversations cid with
  | none => { messages := [], summary := none, totalMessages := none }
  | some conv =>
    { messages := jsSliceLast conv.messages (resolveLimit cfg maxMessages),
      summary := s.summaries cid,
      totalMessages := some conv.messages.length }

/-- Wraps `getConversationContext` in explicit state-passing form, recording
that the call leaves the memory state untouched (the source performs no
mutation: `Map.get` and `slice` do not write). -/
def getConversationContextS (cfg : Config) (s : MemState) (cid : String)
    (maxMessages : Option Nat) : ConversationContext × MemState :=
  (getConversationContext cfg s cid maxMessages, s)

/-! ## ResponseHandler.cleanResponse (src/handlers/responseHandler.js 61-87)

Each JS regex replacement is embedded as a left-to-right scan with
explicit fuel (`input length + 1` bounds the recursion depth: every
step either consumes matched input or advances one character). -/

/-- The backtick character (written by code so that the source file
contains no literal backtick). -/
def btick : Char := Char.ofNat 96

/-- Index of the first occurrence of `pat` as a sublist. -/
def findSubIdx (pat : List Char) : List Char → Option Nat
  | [] => if pat.isEmpty then some 0 else none
  | c :: rest =>
    if startsL (c :: rest) pat then some 0 else (findSubIdx pat rest).map (· + 1)

/-- Index of the first occurrence of a character. -/
def findCharIdx (t : Char) : List Char → Option Nat
  | [] => none
  | c :: rest => if c = t then some 0 else (findCharIdx t rest).map (· + 1)

/-- Embeds `replace(/```[\s\S]*?```/g, '')`: drop each lazily-matched
triple-backtick block (an unclosed opener matches nothing). -/
def stripCodeBlocksF : Nat → List Char → List Char
  | 0, l => l
  | _ + 1, [] => []
  | fuel + 1, c :: rest =>
    if startsL (c :: rest) [btick, btick, btick] then
      match findSubIdx [btick, btick, btick] (rest.drop 2) with
      | some j => stripCodeBlocksF fuel ((rest.drop 2).drop (j + 3))
      | none => c :: rest
    else c :: stripCodeBlocksF fuel rest

/-- Embeds `replace(/`[^`]*`/g, '')`: drop inline code spans. -/
def stripInlineCodeF : Nat → List Char → List Char
  | 0, l => l
  | _ + 1, [] => []
  | fuel + 1, c :: rest =>
    if c = btick then
      match findCharIdx btick rest with
      | some j => stripInlineCodeF fuel (rest.drop (j + 1))
      | none => c :: rest
    else c :: stripInlineCodeF fuel rest

/-- Embeds `replace(/\*\*([^*]+)\*\*/g, '$1')`: unwrap bold spans. -/
def stripBoldF : Nat → List Char → List Char
  | 0, l => l
  | _ + 1, [] => []
  | fuel + 1, c :: rest =>
    if startsL (c :: rest) ['*', '*'] then
      let inner := (rest.drop 1).takeWhile (· ≠ '*')
      let after := (rest.drop 1).drop inner.length
      if inner ≠ [] ∧ startsL after ['*', '*'] then
        inner ++ stripBoldF fuel (after.drop 2)
      else c :: stripBoldF fuel rest
    else c :: stripBoldF fuel rest

/-- Embeds `replace(/\*([^*]+)\*/g, '$1')`: unwrap italic spans. -/
def stripItalicF : Nat → List Char → List Char
  | 0, l => l
  | _ + 1, [] => []
  | fuel + 1, c :: rest =>
    if c = '*' then
      let inner := rest.takeWhile (· ≠ '*')
      let after := rest.drop inner.length
      if inner ≠ [] ∧ startsL after ['*'] then
        inner ++ stripItalicF fuel (after.drop 1)
      else c :: stripItalicF fuel rest
    else c :: stripItalicF fuel rest

/-- Embeds `replace(/#{1,6}\s+/g, '')`: drop markdown header markers (a run of
one to six hashes immediately followed by whitespace, plus the greedy
whitespace run). -/
def stripHeadersF : Nat → List Char → List Char
  | 0, l => l
  | _ + 1, [] => []
  | fuel + 1, c :: rest =>
    if c = '#' then
      let hashes := (c :: rest).takeWhile (· = '#')
      let after := (c :: rest).drop hashes.length
      if hashes.length ≤ 6 ∧ (after.head?.any jsWs) = true then
        stripHeadersF fuel (after.dropWhile jsWs)
      else c :: stripHeadersF fuel rest
    else c :: stripHeadersF fuel rest

/-- The five fallback apology texts of
`ResponseHandler.getFallbackResponse` (93-103), verbatim. -/
def fallbackResponses : List String :=
  ["I\x27m sorry, I\x27m having trouble processing your message right now. Please try again in a moment.",
   "I apologize, but I\x27m experiencing some technical difficulties. Could you please rephrase your question?",
   "I\x27m having trouble understanding that right now. Could you try asking in a different way?",
   "I\x27m sorry, I\x27m not able to respond properly at the moment. Please try again later.",
   "I\x27m experiencing some issues right now. Please give me a moment and try again."]

/-- Embeds `fallbacks[Math.floor(Math.random() * fallbacks.length)]`, with the
random draw modelled by `rnd % 5`. -/
def getFallbackResponse (rnd : Nat) : String :=
  fallbackResponses.getD (rnd % 5) ""

/-- The trim-and-strip part of `cleanResponse`: `trim`, then remove
code blocks, inline code, bold, italics and headers, in source order. -/
def strippedOf (s : String) : List Char :=
  let l0 := jsTrimL s.data
  let l1 := stripCodeBlocksF (l0.length + 1) l0
  let l2 := stripInlineCodeF (l1.length + 1) l1
  let l3 := stripBoldF (l2.length + 1) l2
  let l4 := stripItalicF (l3.length + 1) l3
  stripHeadersF (l4.length + 1) l4

/-- The truncation step: `substring(0, maxResponseLength - 3) + '...'`
when the cleaned text exceeds `maxResponseLength`. -/
def truncatedOf (maxLen : Nat) (s : String) : List Char :=
  let cleaned := strippedOf s
  if cleaned.length > maxLen then cleaned.take (maxLen - 3) ++ ['.', '.', '.']
  else cleaned

/-- Embeds `ResponseHandler.cleanResponse`: non-string/falsy input (`none` or
`""`) and empty/too-short cleaned output are replaced by a fallback
text; otherwise the trimmed, stripped, possibly truncated text. -/
def cleanResponse (maxLen : Nat) (rnd : Nat) (resp : Option String) : String :=
  match resp with
  | none => getFallbackResponse rnd
  | some s =>
    if s = "" then getFallbackResponse rnd
    else
      let cleaned := truncatedOf maxLen s
      if cleaned.isEmpty || cleaned.length < 3 then getFallbackResponse rnd
      else cleaned.asString

/-- Embeds `ResponseHandler.generateResponse` (23-54): on success of the
generation capability, clean the raw text; when the capability throws,
catch and return a fallback response instead (the error never
escapes). -/
def respGenerateResponse (cfg : Config) (gen : Except Unit String) (rnd : Nat) :
    String :=
  match gen with
  | .ok r => cleanResponse cfg.maxResponseLength rnd (some r)
  | .error _ => getFallbackResponse rnd

/-! ## CommandHandler (src/handlers/commandHandler.js) -/

/-- Per-user settings stored in `this.userSettings`. -/
structure UserSettings where
  responsesEnabled : Bool
  lastCommand : Option Int
  commandCount : Nat
deriving DecidableEq

/-- The lazily-created default settings of `getUserSettings`. -/
def defaultUserSettings (cfg : Config) : UserSettings :=
  { responsesEnabled := cfg.autoResponsesEnabled, lastCommand := none,
    commandCount := 0 }

/-- Embeds `CommandHandler.getUserSettings` (461-470): inserts the default on
first access (a state mutation), then returns the entry. -/
def getUserSettings (cfg : Config) (us : StrMap UserSettings) (cid : String) :
    UserSettings × StrMap UserSettings :=
  match us cid with
  | some st => (st, us)
  | none => (defaultUserSettings cfg, us.set cid (defaultUserSettings cfg))

/-- Embeds `CommandHandler.setUserSettings` applied to
`{ responsesEnabled: b }` (the only update the source performs):
spread-merge onto the current (lazily created) settings. -/
def setUserSettingsEnabled (cfg : Config) (us : StrMap UserSettings)
    (cid : String) (b : Bool) : StrMap UserSettings :=
  let g := getUserSettings cfg us cid
  g.2.set cid { g.1 with responsesEnabled := b }

/-- Embeds `CommandHandler.isUserResponsesEnabled` (451-454); also performs
`getUserSettings`'s lazy insertion. -/
def isUserResponsesEnabled (cfg : Config) (us : StrMap UserSettings)
    (cid : String) : Bool × StrMap UserSettings :=
  let g := getUserSettings cfg us cid
  (g.1.responsesEnabled, g.2)

/-- The result shape of `Helpers.parseCommand`. -/
structure ParsedCommand where
  name : Option String
  args : List String

/-- Embeds `Helpers.isCommand`: `text && text.startsWith(prefix)`. -/
def isCommandText (text pfx : String) : Bool :=
  text ≠ "" && jsStarts text pfx

/-- Embeds `Helpers.parseCommand` (111-121): strip the prefix, trim, split on
single spaces; the command name is the lower-cased first piece. -/
def parseCommand (text pfx : String) : ParsedCommand :=
  if !isCommandText text pfx then { name := none, args := [] }
  else
    let parts := jsSplitSpace (jsTrim (text.drop pfx.length))
    { name := some (jsLower (parts.headD "")), args := parts.tail }

/-- The command names bound in `initializeCommands` (236-245). -/
def implementedCommands : List String :=
  ["help", "status", "stop", "start", "info", "personalities"]

/-- Embeds `'✅ Enabled' : '❌ Disabled'`. -/
def enabledDisabled (b : Bool) : String :=
  if b then "✅ Enabled" else "❌ Disabled"

/-- Embeds `config.get('bot.personality') === 'custom' ? 'Custom (Your Style)'
: config.get('bot.personality')`. -/
def personalityDisplay (cfg : Config) : String :=
  if cfg.personality = "custom" then "Custom (Your Style)" else cfg.personality

/-- The unknown-command reply of `processCommand` (263-265). -/
def unknownCommandText (cfg : Config) (name : String) : String :=
  "❌ Unknown command: " ++ name ++ "\nType " ++ cfg.cmdPfx
    ++ "help to see available commands."

/-- The not-implemented reply of `processCommand` (267-269). -/
def notImplementedText (name : String) : String :=
  "❌ Command " ++ name ++ " is not implemented yet."

/-- The static text of `handleHelp`. -/
def helpText (cfg : Config) : String :=
  "🤖 *WhatsApp AI Bot Commands*\n\n"
    ++ cfg.cmdPfx ++ "help - Show this help message\n"
    ++ cfg.cmdPfx ++ "status - Check bot status and information\n"
    ++ cfg.cmdPfx ++ "stop - Disable auto-responses for you\n"
    ++ cfg.cmdPfx ++ "start - Enable auto-responses for you\n"
    ++ cfg.cmdPfx ++ "info - Show bot configuration and personality\n"
    ++ cfg.cmdPfx ++ "personalities - List available personality profiles\n\n"
    ++ "*Usage:*\nJust send any message and I\x27ll respond with AI! "
    ++ "Use commands to control my behavior.\n\n"
    ++ "*Note:* I only respond to direct messages, not group chats."

/-- The reply of `handleStatus`. -/
def statusText (cfg : Config) (st : UserSettings) : String :=
  "🤖 *Bot Status*\n\n*Your Settings:*\n• Auto-responses: "
    ++ enabledDisabled st.responsesEnabled
    ++ "\n• Personality: " ++ personalityDisplay cfg
    ++ "\n\n*Bot Info:*\n• Commands: " ++ enabledDisabled cfg.commandsEnabled
    ++ "\n• Max response length: " ++ toString cfg.maxResponseLength
    ++ " characters\n• Response delay: " ++ toString cfg.responseDelay
    ++ "ms\n\nI\x27m ready to chat! Send me any message and I\x27ll respond with AI."

/-- The reply of `handleStop` (350-354). -/
def stopText (cfg : Config) : String :=
  "✅ *Auto-responses disabled*\n\nI won\x27t respond to your messages anymore. Use "
    ++ cfg.cmdPfx ++ "start to re-enable responses.\n\nYou can still use commands like "
    ++ cfg.cmdPfx ++ "help and " ++ cfg.cmdPfx ++ "status."

/-- The reply of `handleStart` (373-380). -/
def startText (cfg : Config) : String :=
  "✅ *Auto-responses enabled*\n\nI\x27ll now respond to your messages with AI! \n\n"
    ++ "*Current personality:* " ++ personalityDisplay cfg
    ++ "\n*Max response length:* " ++ toString cfg.maxResponseLength
    ++ " characters\n\nSend me any message and I\x27ll respond naturally. Use "
    ++ cfg.cmdPfx ++ "help for more commands."

/-- The reply of `handleInfo`. -/
def infoText (cfg : Config) (st : UserSettings) : String :=
  "🤖 *Bot Information*\n\n*Configuration:*\n• Personality: "
    ++ personalityDisplay cfg
    ++ "\n• Auto-responses: " ++ enabledDisabled cfg.autoResponsesEnabled
    ++ "\n• Response delay: " ++ toString cfg.responseDelay
    ++ "ms\n• Max response length: " ++ toString cfg.maxResponseLength
    ++ " characters\n\n*Your Settings:*\n• Responses: "
    ++ enabledDisabled st.responsesEnabled
    ++ "\n\n*Features:*\n• AI-powered responses using Google Gemini\n"
    ++ "• Conversation memory and context\n• Persistent WhatsApp sessions\n"
    ++ "• Command system\n• Token optimization\n"
    ++ "• Custom personality matching your style\n\n"
    ++ "*Note:* I remember our conversation history to provide better responses!"

/-- The reply of `handlePersonalities` (`cfg.personalities = none` models an
unset `personalityLoader`). -/
def personalitiesText (cfg : Config) : String :=
  match cfg.personalities with
  | none => "❌ Personality system not available."
  | some ps =>
    (ps.foldl (fun acc p =>
        acc ++ "• *" ++ p.displayName ++ "*"
          ++ (if p.name = cfg.personality then " ✅" else "")
          ++ "\n  " ++ p.description ++ "\n\n")
      "🎭 *Available Personalities*\n\n")
      ++ "*Current:* " ++ cfg.personality
      ++ "\n*Note:* Personality can be changed in config files."

/-- An inbound WhatsApp message event (spec §6). -/
structure InMsg where
  id : String
  sender : String
  body : String
  timestamp : Int
  mtype : String
  fromMe : Bool
deriving DecidableEq

/-- The fields `ConversationMemory.addMessage` reads from a message. -/
def InMsg.toData (m : InMsg) : MsgData :=
  { id := m.id, sender := m.sender, body := m.body,
    timestamp := m.timestamp, mtype := m.mtype }

/-- Dispatch of a recognized, implemented command (the bound handlers
of `initializeCommands`; `name` is one of `implementedCommands`, so the
final case is `personalities`). -/
def runCommand (cfg : Config) (us : StrMap UserSettings) (m : InMsg)
    (name : String) : Option String × StrMap UserSettings :=
  if name = "help" then (some (helpText cfg), us)
  else if name = "status" then
    let g := getUserSettings cfg us m.sender
    (some (statusText cfg g.1), g.2)
  else if name = "stop" then
    (some (stopText cfg), setUserSettingsEnabled cfg us m.sender false)
  else if name = "start" then
    (some (startText cfg), setUserSettingsEnabled cfg us m.sender true)
  else if name = "info" then
    let g := getUserSettings cfg us m.sender
    (some (infoText cfg g.1), g.2)
  else (some (personalitiesText cfg), us)

/-- Embeds `CommandHandler.processCommand` (252-285): `null` for non-commands
(commands disabled, empty body, unprefixed body, or empty parsed name),
an unknown-command text for unrecognized names, a not-implemented text
for configured-but-unbound names, otherwise the handler's reply. -/
def processCommand (cfg : Config) (us : StrMap UserSettings) (m : InMsg) :
    Option String × StrMap UserSettings :=
  if !cfg.commandsEnabled || m.body = "" then (none, us)
  else
    match (parseCommand m.body cfg.cmdPfx).name with
    | none => (none, us)
    | some name =>
      if name = "" then (none, us)
      else if !cfg.availableCommands.contains name then
        (some (unknownCommandText cfg name), us)
      else if !implementedCommands.contains name then
        (some (notImplementedText name), us)
      else runCommand cfg us m name

/-! ## Cooldown and frequency state (src/handlers/messageHandler.js,
src/utils/helpers.js) -/

/-- A value of `MessageHandler.cooldownMap`, which stores both
`cooldown_<id> ↦ timestamp` and `frequency_<id> ↦ timestamp array`. -/
inductive CoolVal where
  | ts (t : Int)
  | arr (l : List Int)
deriving DecidableEq

/-- Embeds `Helpers.isCooldownExpired` (139-144): `true` when no (or a falsy,
i.e. `0`) timestamp is recorded, else `now - last >= cooldownMs`.  An
array value under the key (impossible for `cooldown_` keys) is truthy
and makes the comparison `NaN >= cooldownMs`, i.e. `false`. -/
def isCooldownExpired (cool : StrMap CoolVal) (key : String)
    (cooldownMs now : Int) : Bool :=
  match cool key with
  | none => true
  | some (.ts t) => if t = 0 then true else decide (now - t ≥ cooldownMs)
  | some (.arr _) => false

/-- Embeds `Helpers.updateCooldown`: store `now` under the key. -/
def updateCooldown (cool : StrMap CoolVal) (key : String) (now : Int) :
    StrMap CoolVal :=
  cool.set key (.ts now)

/-- The timestamp array stored under a key (`[]` when absent; a number
value — impossible for `frequency_` keys — has no `filter` and is read
as the empty list). -/
def arrAt (cool : StrMap CoolVal) (key : String) : List Int :=
  match cool key with
  | some (.arr l) => l
  | _ => []

/-- Embeds `MessageHandler.checkResponseFrequency` (280-305): keep the
recorded timestamps with `ts > now - 60000`; deny if there are already
`responseFrequencyLimit` of them, otherwise store the pruned list with
`now` appended and allow. -/
def checkResponseFrequency (cfg : Config) (cool : StrMap CoolVal)
    (cid : String) (now : Int) : Bool × StrMap CoolVal :=
  let key := "frequency_" ++ cid
  let cool1 := match cool key with
    | none => cool.set key (.arr [])
    | some _ => cool
  let timestamps := arrAt cool1 key
  let cutoff := now - 60000
  let recent := timestamps.filter (fun ts => decide (ts > cutoff))
  if recent.length ≥ cfg.responseFrequencyLimit then (false, cool1)
  else (true, cool1.set key (.arr (recent ++ [now])))

/-- Modelled from the spec's words, for comparison with
`checkResponseFrequency` (claim C3): "computes the subset of recorded
timestamps within `[now-windowMs, now]`; if count < limit, records
`now` as an additional timestamp and returns true; otherwise returns
false without recording". -/
def checkFrequencyClosedSpec (cfg : Config) (cool : StrMap CoolVal)
    (cid : String) (now : Int) : Bool × StrMap CoolVal :=
  let key := "frequency_" ++ cid
  let timestamps := arrAt cool key
  let inWindow := timestamps.filter (fun ts => decide (now - 60000 ≤ ts ∧ ts ≤ now))
  if inWindow.length < cfg.responseFrequencyLimit then
    (true, cool.set key (.arr (timestamps ++ [now])))
  else (false, cool)

/-! ## MessageHandler.handleMessage (src/handlers/messageHandler.js
52-158) -/

/-- Embeds `Helpers.generateConversationId`: strip the first `@c.us` and map
every non-alphanumeric character to `_`. -/
def generateConversationId (cid : String) : String :=
  ((removeFirstL "@c.us".data cid.data).map
    (fun c => if jsAlnum c then c else '_')).asString

/-- The bot's own turn appended by `generateAIResponse` (184-190). -/
def botMessage (now : Int) (response : String) : MsgData :=
  { id := "bot_" ++ toString now, sender := "bot", body := response,
    timestamp := Int.fdiv now 1000, mtype := "text" }

/-- The mutable state touched by one `handleMessage` call. -/
structure BotState where
  mem : MemState
  userSettings : StrMap UserSettings
  cooldownMap : StrMap CoolVal

/-- Observable effects of one `handleMessage` call: outbound sends (in
order) and the number of generation-capability invocations. -/
structure Effects where
  sends : List (String × String)
  generationCalls : Nat
deriving DecidableEq

/-- No effect. -/
def noEffects : Effects := { sends := [], generationCalls := 0 }

/-- The six short-circuiting filters of `handleMessage` (62-106), in
source order: ignored contact, ignored group, status broadcast, own
message, empty body, short cooldown.  Each rejected case returns with
no state change and no effect. -/
def rejectedByFilters (cfg : Config) (st : BotState) (m : InMsg)
    (now : Int) : Bool :=
  cfg.ignoredContacts.contains m.sender
    || (jsIncludes m.sender "@g.us" && cfg.ignoreGroups)
    || m.sender == "status@broadcast"
    || m.fromMe
    || jsTrim m.body == ""
    || !isCooldownExpired st.cooldownMap ("cooldown_" ++ m.sender) 1000 now

/-- The body of `handleMessage` after the filters (108-149), with
`generateAIResponse` (166-203) inlined: append the inbound message,
try the command router (command replies are sent and refresh the
cooldown, with no generation), then check the per-user enable flag and
the frequency window, then call the generation capability, append the
reply as the bot's turn, send it and refresh the cooldown. -/
def handleMessageCore (cfg : Config) (now : Int) (gen : Except Unit String)
    (rnd : Nat) (st : BotState) (m : InMsg) : BotState × Effects :=
  let cooldownKey := "cooldown_" ++ m.sender
  let cid := generateConversationId m.sender
  let st1 : BotState := { st with mem := addMessage cfg now cid m.toData st.mem }
  match processCommand cfg st1.userSettings m with
  | (some resp, us1) =>
    ({ st1 with userSettings := us1,
                cooldownMap := updateCooldown st1.cooldownMap cooldownKey now },
     { sends := [(m.sender, resp)], generationCalls := 0 })
  | (none, us1) =>
    let st2 : BotState := { st1 with userSettings := us1 }
    let en := isUserResponsesEnabled cfg st2.userSettings m.sender
    let st3 : BotState := { st2 with userSettings := en.2 }
    if !en.1 then (st3, noEffects)
    else
      let fr := checkResponseFrequency cfg st3.cooldownMap m.sender now
      let st4 : BotState := { st3 with cooldownMap := fr.2 }
      if !fr.1 then (st4, noEffects)
      else
        let response := respGenerateResponse cfg gen rnd
        let st5 : BotState :=
          if response ≠ "" then
            { st4 with mem := addMessage cfg now cid (botMessage now response) st4.mem }
          else st4
        if response ≠ "" then
          ({ st5 with cooldownMap := updateCooldown st5.cooldownMap cooldownKey now },
           { sends := [(m.sender, response)], generationCalls := 1 })
        else (st5, { sends := [], generationCalls := 1 })

/-- Embeds `MessageHandler.handleMessage`: the filter chain, then the core. -/
def handleMessage (cfg : Config) (now : Int) (gen : Except Unit String)
    (rnd : Nat) (st : BotState) (m : InMsg) : BotState × Effects :=
  if rejectedByFilters cfg st m now then (st, noEffects)
  else handleMessageCore cfg now gen rnd st m

/-- One inbound event together with its environment (arrival time,
generation outcome, random draw). -/
structure Ev where
  now : Int
  gen : Except Unit String
  rnd : Nat
  msg : InMsg

/-- Process a sequence of inbound events, collecting per-event
effects. -/
def processAll (cfg : Config) (st : BotState) : List Ev → BotState × List Effects
  | [] => (st, [])
  | e :: es =>
    let r := handleMessage cfg e.now e.gen e.rnd st e.msg
    let rest := processAll cfg r.1 es
    (rest.1, r.2 :: rest.2)

/-- The per-user enabled flag visible in a state (`none` when the user
has no settings entry yet). -/
def userEnabled (st : BotState) (cid : String) : Option Bool :=
  (st.userSettings cid).map (·.responsesEnabled)

/-! ## Basic lemmas -/

theorem StrMap.get_set_self (m : StrMap α) (k : String) (v : α) :
    (m.set k v) k = some v := by
  simp [StrMap.set]

theorem StrMap.get_set_ne (m : StrMap α) (k k' : String) (v : α)
    (h : k' ≠ k) : (m.set k v) k' = m k' := by
  simp [StrMap.set, h]

theorem length_asString (l : List Char) : (l.asString).length = l.length := rfl

theorem getFallbackResponse_mem (rnd : Nat) :
    getFallbackResponse rnd ∈ fallbackResponses := by
  have h5 : rnd % 5 = 0 ∨ rnd % 5 = 1 ∨ rnd % 5 = 2 ∨ rnd % 5 = 3 ∨ rnd % 5 = 4 := by
    omega
  rcases h5 with h | h | h | h | h <;>
    simp [getFallbackResponse, h, fallbackResponses]

theorem getFallbackResponse_ne_empty (rnd : Nat) :
    getFallbackResponse rnd ≠ "" := by
  have h5 : rnd % 5 = 0 ∨ rnd % 5 = 1 ∨ rnd % 5 = 2 ∨ rnd % 5 = 3 ∨ rnd % 5 = 4 := by
    omega
  rcases h5 with h | h | h | h | h <;>
    simp [getFallbackResponse, h, fallbackResponses]

/-! ## Concrete instances used by witnesses and counterexamples

`config/default.json` is not among the sources, so configurations are
free parameters of the theorems; the witnesses and counterexamples
instantiate them with representative values (spec §6). -/

/-- A representative configuration. -/
def exCfg : Config :=
  { maxContextMessages := 20, summarizationThreshold := 50,
    maxResponseLength := 500, responseDelay := 0, personality := "custom",
    autoResponsesEnabled := true, cmdPfx := "/", commandsEnabled := true,
    availableCommands := ["help", "status", "stop", "start", "info", "personalities"],
    ignoreGroups := true, ignoredContacts := [], responseFrequencyLimit := 3,
    personalities := none }

/-- A small-memory configuration (threshold 3, context window 1),
used to exercise summarization with short message sequences. -/
def memCfg : Config :=
  { exCfg with maxContextMessages := 1, summarizationThreshold := 3 }

/-- A stored-message literal for concrete states. -/
def exMsg (i : Nat) (b : String) : MsgData :=
  { id := toString i, sender := "123@c.us", body := b,
    timestamp := Int.ofNat i, mtype := "chat" }

def memS1 : MemState := addMessage memCfg 1 "c1" (exMsg 1 "hello") MemState.empty
def memS2 : MemState := addMessage memCfg 2 "c1" (exMsg 2 "world") memS1
def memS3 : MemState := addMessage memCfg 3 "c1" (exMsg 3 "again hello") memS2
def memS4 : MemState := addMessage memCfg 4 "c1" (exMsg 4 "fourth") memS3

/-- The retained conversation after one append to fresh memory. -/
def exConv1 : Conversation :=
  { id := "c1", messages := [mkStoredMsg 1 (exMsg 1 "hello")],
    createdAt := 1, updatedAt := 1 }

/-- The retained conversation after two appends to fresh memory. -/
def exConv2 : Conversation :=
  { id := "c1",
    messages := [mkStoredMsg 1 (exMsg 1 "hello"), mkStoredMsg 2 (exMsg 2 "world")],
    createdAt := 1, updatedAt := 2 }

/-! ## Claim C7 -/

/-- Claim C7: two consecutive calls to `getConversationContext` for the
same conversationId with no intervening `addMessage` return identical
results, and neither call mutates any conversation or summary state
(the call is a pure read in the source: `Map.get` and `slice` do not
write). -/
theorem c7_getContext_idempotent (cfg : Config) (s : MemState)
    (cid : String) (mm : Option Nat) :
    (getConversationContextS cfg s cid mm).2 = s ∧
    (getConversationContextS cfg (getConversationContextS cfg s cid mm).2 cid mm).1
      = (getConversationContextS cfg s cid mm).1 :=
  ⟨rfl, rfl⟩

/-! ## Claim C10 -/

/-- Claim C10: for a conversationId absent from the in-memory cache,
`getConversationContext` returns an empty message list, a null summary
and no `totalMessages` field, creating no conversation and mutating no
state. -/
theorem c10_getContext_unknown (cfg : Config) (s : MemState)
    (cid : String) (mm : Option Nat) (h : s.conversations cid = none) :
    getConversationContextS cfg s cid mm
      = ({ messages := [], summary := none, totalMessages := none }, s) := by
  simp [getConversationContextS, getConversationContext, h]

/-- Witness for C10 at a concrete unknown id. -/
theorem c10_witness :
    getConversationContextS exCfg MemState.empty "nobody" none
      = ({ messages := [], summary := none, totalMessages := none },
         MemState.empty) :=
  c10_getContext_unknown exCfg MemState.empty "nobody" none rfl

/-! ## Claim C3 -/

/-- The frequency-window states of the C3 scenario: limit 3, calls for
key "A" at 0 ms, 1 ms, 2 ms, 3 ms, then 60001 ms. -/
def freqSt0 : StrMap CoolVal := StrMap.empty
def freqSt1 : StrMap CoolVal := (checkResponseFrequency exCfg freqSt0 "A" 0).2
def freqSt2 : StrMap CoolVal := (checkResponseFrequency exCfg freqSt1 "A" 1).2
def freqSt3 : StrMap CoolVal := (checkResponseFrequency exCfg freqSt2 "A" 2).2
def freqSt4 : StrMap CoolVal := (checkResponseFrequency exCfg freqSt3 "A" 3).2

/-- Characterization of `checkResponseFrequency`: it branches on the
number of stored timestamps with `ts > now - 60000` (a strict cutoff),
records the pruned window plus `now` when allowed, and leaves the
stored window unchanged when denied. -/
theorem checkFrequency_char (cfg : Config) (cool : StrMap CoolVal)
    (cid : String) (now : Int) :
    (checkResponseFrequency cfg cool cid now).1
      = decide (((arrAt cool ("frequency_" ++ cid)).filter
          (fun ts => decide (ts > now - 60000))).length
          < cfg.responseFrequencyLimit)
    ∧ arrAt (checkResponseFrequency cfg cool cid now).2 ("frequency_" ++ cid)
      = (if ((arrAt cool ("frequency_" ++ cid)).filter
            (fun ts => decide (ts > now - 60000))).length
            < cfg.responseFrequencyLimit
         then (arrAt cool ("frequency_" ++ cid)).filter
            (fun ts => decide (ts > now - 60000)) ++ [now]
         else arrAt cool ("frequency_" ++ cid)) := by
  unfold checkResponseFrequency
  cases h : cool ("frequency_" ++ cid) with
  | none =>
    simp only [h, arrAt, StrMap.get_set_self, List.filter_nil,
      List.length_nil, List.nil_append]
    by_cases hl : 0 < cfg.responseFrequencyLimit
    · simp [hl, Nat.not_le.mpr hl, StrMap.get_set_self]
    · simp [hl, Nat.le_zero.mp (Nat.not_lt.mp hl), StrMap.get_set_self]
  | some v =>
    cases v with
    | ts t =>
      simp only [h, arrAt, List.filter_nil, List.length_nil]
      by_cases hl : 0 < cfg.responseFrequencyLimit
      · simp [hl, Nat.not_le.mpr hl, StrMap.get_set_self, arrAt, h]
      · simp [hl, Nat.le_zero.mp (Nat.not_lt.mp hl), StrMap.get_set_self, arrAt, h]
    | arr l =>
      simp only [h, arrAt]
      by_cases hl :
          (l.filter (fun ts => decide (ts > now - 60000))).length
            < cfg.responseFrequencyLimit
      · simp [hl, Nat.not_le.mpr hl, StrMap.get_set_self, arrAt, h]
      · simp [hl, Nat.le_of_not_lt (by exact fun hc => hl hc), arrAt, h,
          Nat.not_lt.mp hl]

/-- Claim C3 (amended): the frequency check counts the recorded
timestamps with `ts > now - windowMs` (a strict cutoff — the half-open
window `(now-windowMs, now]` once one notes that recorded timestamps
never exceed the current time — not the closed interval
`[now-windowMs, now]`); if that count is below the limit it stores the
pruned window with `now` appended and returns true, otherwise it
returns false leaving the stored window unchanged.  With limit 3 and
the 60000 ms window, the 4th call within 60 s for key "A" returns
false, and a call after the window has elapsed returns true again. -/
theorem c3_checkFrequency_spec :
    (∀ (cfg : Config) (cool : StrMap CoolVal) (cid : String) (now : Int),
      (checkResponseFrequency cfg cool cid now).1
        = decide (((arrAt cool ("frequency_" ++ cid)).filter
            (fun ts => decide (ts > now - 60000))).length
            < cfg.responseFrequencyLimit)
      ∧ arrAt (checkResponseFrequency cfg cool cid now).2 ("frequency_" ++ cid)
        = (if ((arrAt cool ("frequency_" ++ cid)).filter
              (fun ts => decide (ts > now - 60000))).length
              < cfg.responseFrequencyLimit
           then (arrAt cool ("frequency_" ++ cid)).filter
              (fun ts => decide (ts > now - 60000)) ++ [now]
           else arrAt cool ("frequency_" ++ cid)))
    ∧ (checkResponseFrequency exCfg freqSt0 "A" 0).1 = true
    ∧ (checkResponseFrequency exCfg freqSt1 "A" 1).1 = true
    ∧ (checkResponseFrequency exCfg freqSt2 "A" 2).1 = true
    ∧ (checkResponseFrequency exCfg freqSt3 "A" 3).1 = false
    ∧ (checkResponseFrequency exCfg freqSt4 "A" 60001).1 = true :=
  ⟨checkFrequency_char, by decide, by decide, by decide, by decide, by decide⟩

/-- Counterexample for C3 as stated: with a recorded timestamp exactly
at `now - windowMs` (here 0, with `now = 60000`) and limit 1, the code
allows the call (the timestamp is outside its strict window), while the
claimed closed-interval rule would deny it. -/
theorem c3_counterexample :
    (checkResponseFrequency { exCfg with responseFrequencyLimit := 1 }
        (StrMap.empty.set "frequency_A" (.arr [0])) "A" 60000).1 = true
    ∧ (checkFrequencyClosedSpec { exCfg with responseFrequencyLimit := 1 }
        (StrMap.empty.set "frequency_A" (.arr [0])) "A" 60000).1 = false := by
  decide

/-! ## Claim C9 -/

/-- A prefixed message whose parsed command name is empty. -/
def slashMsg : InMsg :=
  { id := "m0", sender := "123@c.us", body := "/", timestamp := 0,
    mtype := "chat", fromMe := false }

/-- An unrecognized command message. -/
def frobMsg : InMsg :=
  { id := "m1", sender := "123@c.us", body := "/frobnicate", timestamp := 0,
    mtype := "chat", fromMe := false }

/-- Counterexample for C9 as stated: the body `"/"` starts with the
command prefix and its parsed command name (the empty string) is not a
recognized command, yet `processCommand` returns null (falling through
to generation), not an unknown-command text. -/
theorem c9_counterexample :
    (processCommand exCfg StrMap.empty slashMsg).1 = none
    ∧ jsStarts slashMsg.body exCfg.cmdPfx = true
    ∧ (parseCommand slashMsg.body exCfg.cmdPfx).name = some ""
    ∧ exCfg.availableCommands.contains "" = false := by
  decide

/-- Claim C9 (amended): for every message whose parsed command name is
nonempty and not in the configured command list (commands enabled),
`processCommand` returns the user-visible unknown-command text — not
null and not an exception (the embedded function is total) — and does
not touch the per-user settings.  A bare prefix (empty parsed name)
instead returns null and falls through to generation. -/
theorem c9_unknownCommand (cfg : Config) (us : StrMap UserSettings)
    (m : InMsg) (name : String)
    (hen : cfg.commandsEnabled = true)
    (hname : (parseCommand m.body cfg.cmdPfx).name = some name)
    (hne : name ≠ "")
    (hunk : cfg.availableCommands.contains name = false) :
    processCommand cfg us m = (some (unknownCommandText cfg name), us) := by
  have hbody : m.body ≠ "" := by
    intro hb
    rw [parseCommand, isCommandText, hb] at hname
    simp at hname
  have hunk' : ¬ name ∈ cfg.availableCommands := by simpa using hunk
  simp [processCommand, hen, hbody, hname, hne, hunk']

/-- Witness for C9 (amended) at `"/frobnicate"`. -/
theorem c9_witness :
    processCommand exCfg StrMap.empty frobMsg
      = (some (unknownCommandText exCfg "frobnicate"), StrMap.empty) :=
  c9_unknownCommand exCfg StrMap.empty frobMsg "frobnicate" rfl (by decide)
    (by decide) (by decide)

/-! ## Claim C6 -/

/-- Claim C6: `cleanResponse` trims the raw result, strips markup
artifacts (code blocks, inline code, bold, italics, headers — the
`strippedOf` pipeline embedded from the source) and enforces the
configured maximum length by truncation with a trailing `'...'`
marker, so the returned text never exceeds `maxResponseLength`
characters (provided the canned fallbacks fit, which holds for any
realistic configured maximum); an empty or too-short result, or a
non-string/falsy input, is replaced by a canned fallback text. -/
theorem c6_cleanResponse_spec (maxLen rnd : Nat) (resp : Option String)
    (hfb : ∀ f ∈ fallbackResponses, f.length ≤ maxLen)
    (h3 : 3 ≤ maxLen) :
    (cleanResponse maxLen rnd resp).length ≤ maxLen
    ∧ (∀ s, resp = some s → s ≠ "" → (truncatedOf maxLen s).length < 3 →
        cleanResponse maxLen rnd resp = getFallbackResponse rnd)
    ∧ (resp = none → cleanResponse maxLen rnd resp = getFallbackResponse rnd)
    ∧ getFallbackResponse rnd ∈ fallbackResponses := by
  have hfbLen : (getFallbackResponse rnd).length ≤ maxLen :=
    hfb _ (getFallbackResponse_mem rnd)
  refine ⟨?_, ?_, ?_, getFallbackResponse_mem rnd⟩
  · cases resp with
    | none => simpa [cleanResponse] using hfbLen
    | some s =>
      by_cases hs : s = ""
      · simpa [cleanResponse, hs] using hfbLen
      · by_cases hshort :
            (truncatedOf maxLen s).isEmpty = true
              ∨ (truncatedOf maxLen s).length < 3
        · have : ((truncatedOf maxLen s).isEmpty
              || decide ((truncatedOf maxLen s).length < 3)) = true := by
            rcases hshort with h | h <;> simp [h]
          simpa [cleanResponse, hs, this] using hfbLen
        · have hcond : ((truncatedOf maxLen s).isEmpty
              || decide ((truncatedOf maxLen s).length < 3)) = false := by
            push_neg at hshort
            simp [hshort.1, hshort.2]
          simp only [cleanResponse, hs, if_neg hs, hcond, Bool.false_eq_true,
            if_false, length_asString]
          unfold truncatedOf
          by_cases hlong : (strippedOf s).length > maxLen
          · simp only [hlong, if_pos, List.length_append, List.length_take]
            simp
            omega
          · simp only [if_neg hlong]
            omega
  · intro s hresp hs hshort
    subst hresp
    have : ((truncatedOf maxLen s).isEmpty
        || decide ((truncatedOf maxLen s).length < 3)) = true := by
      simp [hshort]
    simp [cleanResponse, hs, this]
  · intro h
    subst h
    rfl

/-- Witness for C6: a concrete call with markup and a 200-character
limit. -/
theorem c6_witness :
    (cleanResponse 200 0 (some "  **hello** world  ")).length ≤ 200 :=
  (c6_cleanResponse_spec 200 0 (some "  **hello** world  ")
    (by decide) (by decide)).1

/-! ## Claim C1 -/

/-- Counterexample for C1 as stated: with threshold 3 and context
window 1, after three appends the conversation has historically seen 3
messages (1 retained + 2 compacted into the summary), but
`getConversationContext` reports `totalMessages = 1` — the retained
count only, not the historical total. -/
theorem c1_counterexample :
    (getConversationContext memCfg memS3 "c1" none).totalMessages = some 1
    ∧ (getConversationContext memCfg memS3 "c1" none).messages.length = 1
    ∧ ((memS3.summaries "c1").map (·.messageCount)) = some 2
    ∧ (getConversationContext memCfg memS3 "c1" none).totalMessages
        ≠ some (1 + 2) := by
  decide

/-- Claim C1 (amended): for every conversation present in memory,
`getConversationContext` returns the last `maxMessages` retained
messages (a suffix of the retained list, of length
`min maxMessages retained`) with no side effect, the current Summary
if present, and a `totalMessages` field equal to the number of
currently retained messages — messages already compacted into the
Summary are not counted. -/
theorem c1_getContext_spec (cfg : Config) (s : MemState) (cid : String)
    (mm : Option Nat) (conv : Conversation)
    (h : s.conversations cid = some conv)
    (hl : 0 < resolveLimit cfg mm) :
    (getConversationContext cfg s cid mm).summary = s.summaries cid
    ∧ (getConversationContext cfg s cid mm).totalMessages
        = some conv.messages.length
    ∧ (getConversationContext cfg s cid mm).messages.length
        = min (resolveLimit cfg mm) conv.messages.length
    ∧ conv.messages
        = conv.messages.take (conv.messages.length - resolveLimit cfg mm)
          ++ (getConversationContext cfg s cid mm).messages
    ∧ (getConversationContextS cfg s cid mm).2 = s := by
  have hne : resolveLimit cfg mm ≠ 0 := by omega
  refine ⟨?_, ?_, ?_, ?_, rfl⟩
  · simp [getConversationContext, h]
  · simp [getConversationContext, h]
  · simp only [getConversationContext, h, jsSliceLast, hne, if_false,
      List.length_drop]
    omega
  · simp only [getConversationContext, h, jsSliceLast, hne, if_false]
    exact (List.take_append_drop _ _).symm

/-- Witness for C1 (amended) on a one-message conversation. -/
theorem c1_witness :
    (getConversationContext memCfg memS1 "c1" (some 5)).totalMessages
      = some exConv1.messages.length :=
  (c1_getContext_spec memCfg memS1 "c1" (some 5) exConv1 (by decide)
    (by decide)).2.1

/-! ## Claim C2 -/

/-- Counterexample for C2 as stated: with threshold 3 and context
window 1, a sequence of N = 4 ≥ 3 appends leaves 2 retained messages
after the 4th append — more than `maxContextMessages = 1` (the bound
only holds right after an append that triggers summarization, here the
3rd). -/
theorem c2_counterexample :
    ((memS4.conversations "c1").map (fun c => c.messages.length)) = some 2
    ∧ memCfg.maxContextMessages = 1
    ∧ memCfg.summarizationThreshold = 3
    ∧ ¬ (2 ≤ 1) := by
  decide

/-- Claim C2 (amended): for every append that triggers summarization —
i.e. the retained list reaches `summarizationThreshold` with the new
message (with `0 < maxContextMessages < summarizationThreshold`) —
immediately after that append the retained list has length exactly
`maxContextMessages` (in particular ≤), and exactly one Summary exists
for the conversation (the summaries map holds one entry per id by
construction) whose `messageCount` equals the number of messages
evicted from the retained list at that summarization.  After appends
that do not trigger summarization the retained length may exceed
`maxContextMessages` (it stays below the threshold). -/
theorem c2_summarize_on_trigger (cfg : Config) (now : Int) (cid : String)
    (m : MsgData) (s : MemState) (conv : Conversation)
    (hconv : s.conversations cid = some conv)
    (h0 : 0 < cfg.maxContextMessages)
    (hlt : cfg.maxContextMessages < cfg.summarizationThreshold)
    (htrig : cfg.summarizationThreshold ≤ conv.messages.length + 1) :
    (((addMessage cfg now cid m s).conversations cid).map
        (fun c => c.messages.length)) = some cfg.maxContextMessages
    ∧ (((addMessage cfg now cid m s).summaries cid).map (·.messageCount))
        = some (conv.messages.length + 1 - cfg.maxContextMessages) := by
  have hne0 : cfg.maxContextMessages ≠ 0 := by omega
  simp only [addMessage, hconv]
  have hlen : (conv.messages ++ [mkStoredMsg now m]).length
      = conv.messages.length + 1 := by
    simp
  rw [if_pos (by rw [hlen]; exact htrig)]
  simp only [summarizeConversation, StrMap.get_set_self]
  rw [if_neg (by rw [hlen]; omega)]
  simp only [jsSliceDropLast, jsSliceLast, hne0, if_false,
    StrMap.get_set_self, Option.map_some, hlen, List.length_take,
    List.length_drop, List.length_append, List.length_cons,
    List.length_nil]
  constructor
  · simp only [Option.map_some', Option.some.injEq, List.length_drop,
      List.length_take, hlen]
    omega
  · simp only [Option.map_some', Option.some.injEq, List.length_drop,
      List.length_take, hlen]
    omega

/-- Witness for C2 (amended): the third append to a two-message
conversation (threshold 3, window 1) leaves one retained message. -/
theorem c2_witness :
    (((addMessage memCfg 3 "c1" (exMsg 3 "again hello") memS2).conversations "c1").map
        (fun c => c.messages.length)) = some memCfg.maxContextMessages :=
  (c2_summarize_on_trigger memCfg 3 "c1" (exMsg 3 "again hello") memS2 exConv2
    (by decide) (by decide) (by decide) (by decide)).1

/-! ## Claim C4 -/

/-- The retained suffix kept by summarization always ends with the last
appended message. -/
theorem jsSliceLast_getLast_concat (mc : Nat) (base : List MemMsg)
    (x : MemMsg) :
    (jsSliceLast (base ++ [x]) mc).getLast? = some x := by
  unfold jsSliceLast
  by_cases h0 : mc = 0
  · simp [h0]
  · rw [if_neg h0, List.drop_append_of_le_length (by simp; omega)]
    simp

/-- The branch of `addMessage` after the conversation has been fetched
or created: the conversation retained afterwards always ends with the
newly stored message (summarization keeps a suffix that contains it). -/
theorem addMessage_branch_getLast (cfg : Config) (now : Int) (cid : String)
    (m : MsgData) (s : MemState) (conv : Conversation) :
    (((let conv' : Conversation :=
          { conv with messages := conv.messages ++ [mkStoredMsg now m],
                      updatedAt := now }
        let s1 : MemState :=
          { s with conversations := s.conversations.set cid conv' }
        if conv'.messages.length ≥ cfg.summarizationThreshold then
          summarizeConversation cfg now cid s1
        else s1).conversations cid).map
      (fun c => c.messages.getLast?)) = some (some (mkStoredMsg now m)) := by
  dsimp only
  by_cases hth :
      (conv.messages ++ [mkStoredMsg now m]).length ≥ cfg.summarizationThreshold
  · rw [if_pos hth]
    unfold summarizeConversation
    simp only [StrMap.get_set_self]
    rw [if_neg (by omega)]
    simp only [StrMap.get_set_self, Option.map_some', Option.some.injEq]
    exact jsSliceLast_getLast_concat _ _ _
  · rw [if_neg hth]
    simp only [StrMap.get_set_self, Option.map_some', Option.some.injEq]
    exact List.getLast?_concat _

/-- After any `addMessage`, the retained message list of the target
conversation ends with the message just stored. -/
theorem addMessage_getLast (cfg : Config) (now : Int) (cid : String)
    (m : MsgData) (s : MemState) :
    (((addMessage cfg now cid m s).conversations cid).map
        (fun c => c.messages.getLast?)) = some (some (mkStoredMsg now m)) := by
  unfold addMessage
  cases h : s.conversations cid with
  | none => exact addMessage_branch_getLast cfg now cid m s _
  | some c => exact addMessage_branch_getLast cfg now cid m s c

/-- Claim C4: if the generation capability throws while producing a
response for a passed-filter, non-command message of a
responses-enabled, frequency-allowed contact, the pipeline sends
exactly one member of the fixed set of fallback apology texts to the
contact, makes exactly one generation attempt, and also appends that
same fallback text to ConversationMemory as a message attributed to
the agent (`from = "bot"`); the error is never propagated (the
embedded pipeline is total and the sent text is the fallback, not an
error). -/
theorem c4_generation_failure (cfg : Config) (st : BotState) (m : InMsg)
    (now : Int) (rnd : Nat)
    (hrej : rejectedByFilters cfg st m now = false)
    (hcmd : (processCommand cfg st.userSettings m).1 = none)
    (hen : (isUserResponsesEnabled cfg
        (processCommand cfg st.userSettings m).2 m.sender).1 = true)
    (hfr : (checkResponseFrequency cfg st.cooldownMap m.sender now).1 = true) :
    (handleMessage cfg now (.error ()) rnd st m).2.sends
      = [(m.sender, getFallbackResponse rnd)]
    ∧ getFallbackResponse rnd ∈ fallbackResponses
    ∧ (handleMessage cfg now (.error ()) rnd st m).2.generationCalls = 1
    ∧ (((handleMessage cfg now (.error ()) rnd st m).1.mem.conversations
          (generateConversationId m.sender)).map
        (fun c => c.messages.getLast?))
      = some (some (mkStoredMsg now
          (botMessage now (getFallbackResponse rnd)))) := by
  have hfb := getFallbackResponse_ne_empty rnd
  have hp : processCommand cfg st.userSettings m
      = (none, (processCommand cfg st.userSettings m).2) := by
    conv_lhs => rw [← Prod.mk.eta (p := processCommand cfg st.userSettings m)]
    rw [hcmd]
  unfold handleMessage handleMessageCore
  rw [if_neg (by simp [hrej])]
  dsimp only
  rw [hp]
  dsimp only
  simp only [hen, Bool.not_true, Bool.false_eq_true, if_false]
  simp only [hfr, Bool.not_true, Bool.false_eq_true, if_false]
  dsimp only [respGenerateResponse]
  rw [if_pos hfb, if_pos hfb]
  exact ⟨rfl, getFallbackResponse_mem rnd, rfl,
    addMessage_getLast cfg now (generateConversationId m.sender)
      (botMessage now (getFallbackResponse rnd)) _⟩

/-- A plain chat message from a direct contact. -/
def chatMsg : InMsg :=
  { id := "m2", sender := "123@c.us", body := "hello there", timestamp := 1,
    mtype := "chat", fromMe := false }

/-- The fresh pipeline state. -/
def st0 : BotState :=
  { mem := MemState.empty, userSettings := StrMap.empty,
    cooldownMap := StrMap.empty }

/-- Witness for C4: a concrete failed generation sends the fallback
text chosen by the random draw. -/
theorem c4_witness :
    (handleMessage exCfg 1000 (.error ()) 0 st0 chatMsg).2.sends
      = [("123@c.us", getFallbackResponse 0)] :=
  (c4_generation_failure exCfg st0 chatMsg 1000 0 (by decide) (by decide)
    (by decide) (by decide)).1

/-! ## Claim C5 -/

/-- A message that does not start with the command prefix is not a
command: `processCommand` returns null and leaves the settings
untouched. -/
theorem processCommand_nonprefixed (cfg : Config) (us : StrMap UserSettings)
    (m : InMsg) (h : jsStarts m.body cfg.cmdPfx = false) :
    processCommand cfg us m = (none, us) := by
  unfold processCommand
  by_cases hd : (!cfg.commandsEnabled || decide (m.body = "")) = true
  · rw [if_pos hd]
  · rw [if_neg hd]
    simp only [parseCommand, isCommandText, h, Bool.and_false,
      Bool.not_false, if_true]

/-- The map written by `setUserSettingsEnabled` stores the flag it is given. -/
theorem userEnabled_set (cfg : Config) (us : StrMap UserSettings)
    (cid : String) (b : Bool) :
    ((setUserSettingsEnabled cfg us cid b) cid).map (·.responsesEnabled)
      = some b := by
  unfold setUserSettingsEnabled getUserSettings
  cases h : us cid <;> simp [h, StrMap.get_set_self]

/-- Processing one non-command message of a responses-disabled contact:
no send, no generation call, and the contact stays disabled. -/
theorem handleMessage_disabled (cfg : Config) (now : Int)
    (gen : Except Unit String) (rnd : Nat) (st : BotState) (m : InMsg)
    (hdis : userEnabled st m.sender = some false)
    (hnp : jsStarts m.body cfg.cmdPfx = false) :
    (handleMessage cfg now gen rnd st m).2 = noEffects
    ∧ userEnabled (handleMessage cfg now gen rnd st m).1 m.sender
        = some false := by
  obtain ⟨g, hset, hfalse⟩ :
      ∃ g, st.userSettings m.sender = some g ∧ g.responsesEnabled = false := by
    unfold userEnabled at hdis
    cases h : st.userSettings m.sender with
    | none => rw [h] at hdis; simp at hdis
    | some g =>
      rw [h] at hdis
      simp only [Option.map_some', Option.some.injEq] at hdis
      exact ⟨g, rfl, hdis⟩
  unfold handleMessage
  by_cases hrej : rejectedByFilters cfg st m now = true
  · rw [if_pos hrej]
    exact ⟨rfl, hdis⟩
  · rw [if_neg hrej]
    unfold handleMessageCore
    dsimp only
    rw [processCommand_nonprefixed cfg st.userSettings m hnp]
    dsimp only
    unfold isUserResponsesEnabled getUserSettings
    rw [hset]
    dsimp only
    rw [hfalse]
    simp only [Bool.not_false, if_true]
    exact ⟨by trivial, by simp [userEnabled, hset, hfalse]⟩

/-- Folding `handleMessage` over non-command messages of a disabled
contact: every event produces no effect and the contact stays
disabled. -/
theorem processAll_disabled (cfg : Config) (c : String) :
    ∀ (evs : List Ev) (st : BotState),
    userEnabled st c = some false →
    (∀ e ∈ evs, e.msg.sender = c ∧ jsStarts e.msg.body cfg.cmdPfx = false) →
    (∀ eff ∈ (processAll cfg st evs).2, eff = noEffects)
    ∧ userEnabled (processAll cfg st evs).1 c = some false := by
  intro evs
  induction evs with
  | nil =>
    intro st h _
    exact ⟨by simp [processAll], h⟩
  | cons e es ih =>
    intro st h hall
    obtain ⟨hsender, hnp⟩ := hall e (by simp)
    have hdis : userEnabled st e.msg.sender = some false := by
      rw [hsender]; exact h
    have step := handleMessage_disabled cfg e.now e.gen e.rnd st e.msg hdis hnp
    have hdis' : userEnabled (handleMessage cfg e.now e.gen e.rnd st e.msg).1 c
        = some false := by
      rw [← hsender]; exact step.2
    have rest := ih (handleMessage cfg e.now e.gen e.rnd st e.msg).1 hdis'
      (fun e' he' => hall e' (by simp [he']))
    refine ⟨?_, ?_⟩
    · intro eff heff
      simp only [processAll, List.mem_cons] at heff
      rcases heff with heq | hmem
      · rw [heq]; exact step.1
      · exact rest.1 eff hmem
    · simpa only [processAll] using rest.2

/-- Evaluates `processCommand` on a `/stop`-parsed message: the stop reply, and
the contact's `responsesEnabled` set to false. -/
theorem processCommand_stop (cfg : Config) (us : StrMap UserSettings)
    (m : InMsg)
    (hen : cfg.commandsEnabled = true)
    (hparse : (parseCommand m.body cfg.cmdPfx).name = some "stop")
    (hav : cfg.availableCommands.contains "stop" = true) :
    processCommand cfg us m
      = (some (stopText cfg), setUserSettingsEnabled cfg us m.sender false) := by
  have hbody : m.body ≠ "" := by
    intro hb
    rw [parseCommand, isCommandText, hb] at hparse
    simp at hparse
  have hav' : "stop" ∈ cfg.availableCommands := by simpa using hav
  simp [processCommand, hen, hbody, hparse, hav', implementedCommands,
    runCommand]

/-- Evaluates `processCommand` on a `/start`-parsed message: the start reply, and
the contact's `responsesEnabled` set to true. -/
theorem processCommand_start (cfg : Config) (us : StrMap UserSettings)
    (m : InMsg)
    (hen : cfg.commandsEnabled = true)
    (hparse : (parseCommand m.body cfg.cmdPfx).name = some "start")
    (hav : cfg.availableCommands.contains "start" = true) :
    processCommand cfg us m
      = (some (startText cfg), setUserSettingsEnabled cfg us m.sender true) := by
  have hbody : m.body ≠ "" := by
    intro hb
    rw [parseCommand, isCommandText, hb] at hparse
    simp at hparse
  have hav' : "start" ∈ cfg.availableCommands := by simpa using hav
  simp [processCommand, hen, hbody, hparse, hav', implementedCommands,
    runCommand]

/-- Claim C5: after a contact sends `/stop` (a passed-filter message
parsed as the stop command), the contact's responses are disabled and
the stop reply is sent with no generation call; from a disabled state,
every subsequent non-command message from that contact produces no
generation call and no outbound send, and leaves the contact disabled;
sending `/start` re-enables responses; and from an enabled state a
passed-filter, non-command, frequency-allowed message produces exactly
one generation call. -/
theorem c5_stop_start :
    (∀ (cfg : Config) (now : Int) (gen : Except Unit String) (rnd : Nat)
        (st : BotState) (m : InMsg),
      rejectedByFilters cfg st m now = false →
      cfg.commandsEnabled = true →
      (parseCommand m.body cfg.cmdPfx).name = some "stop" →
      cfg.availableCommands.contains "stop" = true →
      userEnabled (handleMessage cfg now gen rnd st m).1 m.sender = some false
      ∧ (handleMessage cfg now gen rnd st m).2.generationCalls = 0
      ∧ (handleMessage cfg now gen rnd st m).2.sends
          = [(m.sender, stopText cfg)])
    ∧ (∀ (cfg : Config) (c : String) (evs : List Ev) (st : BotState),
      userEnabled st c = some false →
      (∀ e ∈ evs, e.msg.sender = c ∧ jsStarts e.msg.body cfg.cmdPfx = false) →
      (∀ eff ∈ (processAll cfg st evs).2, eff = noEffects)
      ∧ userEnabled (processAll cfg st evs).1 c = some false)
    ∧ (∀ (cfg : Config) (now : Int) (gen : Except Unit String) (rnd : Nat)
        (st : BotState) (m : InMsg),
      rejectedByFilters cfg st m now = false →
      cfg.commandsEnabled = true →
      (parseCommand m.body cfg.cmdPfx).name = some "start" →
      cfg.availableCommands.contains "start" = true →
      userEnabled (handleMessage cfg now gen rnd st m).1 m.sender = some true
      ∧ (handleMessage cfg now gen rnd st m).2.sends
          = [(m.sender, startText cfg)])
    ∧ (∀ (cfg : Config) (now : Int) (gen : Except Unit String) (rnd : Nat)
        (st : BotState) (m : InMsg),
      rejectedByFilters cfg st m now = false →
      jsStarts m.body cfg.cmdPfx = false →
      userEnabled st m.sender = some true →
      (checkResponseFrequency cfg st.cooldownMap m.sender now).1 = true →
      (handleMessage cfg now gen rnd st m).2.generationCalls = 1) := by
  refine ⟨?_, processAll_disabled, ?_, ?_⟩
  · intro cfg now gen rnd st m hrej hen hparse hav
    unfold handleMessage
    rw [if_neg (by simp [hrej])]
    unfold handleMessageCore
    dsimp only
    rw [processCommand_stop cfg st.userSettings m hen hparse hav]
    dsimp only
    exact ⟨userEnabled_set cfg st.userSettings m.sender false, rfl, rfl⟩
  · intro cfg now gen rnd st m hrej hen hparse hav
    unfold handleMessage
    rw [if_neg (by simp [hrej])]
    unfold handleMessageCore
    dsimp only
    rw [processCommand_start cfg st.userSettings m hen hparse hav]
    dsimp only
    exact ⟨userEnabled_set cfg st.userSettings m.sender true, rfl⟩
  · intro cfg now gen rnd st m hrej hnp hena hfr
    obtain ⟨g, hset, htrue⟩ :
        ∃ g, st.userSettings m.sender = some g ∧ g.responsesEnabled = true := by
      unfold userEnabled at hena
      cases h : st.userSettings m.sender with
      | none => rw [h] at hena; simp at hena
      | some g =>
        rw [h] at hena
        simp only [Option.map_some', Option.some.injEq] at hena
        exact ⟨g, rfl, hena⟩
    unfold handleMessage
    rw [if_neg (by simp [hrej])]
    unfold handleMessageCore
    dsimp only
    rw [processCommand_nonprefixed cfg st.userSettings m hnp]
    dsimp only
    unfold isUserResponsesEnabled getUserSettings
    rw [hset]
    dsimp only
    rw [htrue]
    simp only [Bool.not_true, Bool.false_eq_true, if_false]
    simp only [hfr, Bool.not_true, Bool.false_eq_true, if_false]
    by_cases hre : respGenerateResponse cfg gen rnd ≠ ""
    · rw [if_pos hre, if_pos hre]
    · rw [if_neg hre, if_neg hre]

/-- The `/stop` command message. -/
def stopMsg : InMsg :=
  { id := "s1", sender := "123@c.us", body := "/stop", timestamp := 1,
    mtype := "chat", fromMe := false }

/-- The `/start` command message. -/
def startMsg : InMsg :=
  { id := "s2", sender := "123@c.us", body := "/start", timestamp := 4,
    mtype := "chat", fromMe := false }

/-- The state after `/stop` at 1000 ms. -/
def stAfterStop : BotState :=
  (handleMessage exCfg 1000 (Except.ok "x") 0 st0 stopMsg).1

/-- A later plain chat event while disabled. -/
def evChat : Ev := { now := 2500, gen := Except.ok "x", rnd := 0, msg := chatMsg }

/-- The state after the silenced chat message. -/
def stAfterChats : BotState := (processAll exCfg stAfterStop [evChat]).1

/-- The state after `/start` at 4000 ms. -/
def stAfterStart : BotState :=
  (handleMessage exCfg 4000 (Except.ok "x") 0 stAfterChats startMsg).1

/-- Witness for C5: a concrete stop → silenced chat → start → generated
chat sequence. -/
theorem c5_witness :
    userEnabled stAfterStop "123@c.us" = some false
    ∧ userEnabled stAfterChats "123@c.us" = some false
    ∧ userEnabled stAfterStart "123@c.us" = some true
    ∧ (handleMessage exCfg 6000 (Except.error ()) 0 stAfterStart chatMsg).2.generationCalls
        = 1 := by
  have h1 := (c5_stop_start.1 exCfg 1000 (Except.ok "x") 0 st0 stopMsg
    (by decide) rfl (by decide) (by decide)).1
  have h2 := (c5_stop_start.2.1 exCfg "123@c.us" [evChat] stAfterStop h1
    (by
      intro e he
      simp only [List.mem_singleton] at he
      subst he
      exact ⟨rfl, by decide⟩)).2
  have h3 := (c5_stop_start.2.2.1 exCfg 4000 (Except.ok "x") 0 stAfterChats
    startMsg (by decide) rfl (by decide) (by decide)).1
  have h4 := c5_stop_start.2.2.2 exCfg 6000 (Except.error ()) 0 stAfterStart
    chatMsg (by decide) (by decide) h3 (by decide)
  exact ⟨h1, h2, h3, h4⟩

/-! ## Claim C8 -/

/-- Modelled from the spec's words, for comparison with
`extractKeyTopics` (claim C8): the same token pipeline, with frequency
ties broken purely by first-occurrence order (`wordCounts` lists words
in first-occurrence order; the stable descending sort preserves that
order on ties). -/
def extractKeyTopicsFirstOcc (bodies : List String) : List String :=
  ((sortCountDesc (wordCounts bodies)).take 10).map Prod.fst

/-- Counterexample for C8 as stated: for the single message
`"abc 123"` both tokens occur once; `Object.entries` enumerates the
array-index key `"123"` before `"abc"` regardless of insertion order,
so the code returns `["123", "abc"]` while the claimed
first-occurrence tie-break yields `["abc", "123"]`. -/
theorem c8_counterexample :
    extractKeyTopics ["abc 123"] = ["123", "abc"]
    ∧ extractKeyTopicsFirstOcc ["abc 123"] = ["abc", "123"]
    ∧ extractKeyTopics ["abc 123"] ≠ extractKeyTopicsFirstOcc ["abc 123"] := by
  decide

/-- The count an association list assigns to a key (0 when absent). -/
def lookupCount (l : List (String × Nat)) (u : String) : Nat :=
  ((l.find? (fun p => p.1 == u)).map (·.2)).getD 0

/-- First-occurrence deduplication with an explicit seen-set. -/
def firstDedupAux : List String → List String → List String
  | [], _ => []
  | w :: ws, seen =>
    if w ∈ seen then firstDedupAux ws seen
    else w :: firstDedupAux ws (w :: seen)

/-- The distinct tokens of a list, in first-occurrence order. -/
def firstDedup (ts : List String) : List String := firstDedupAux ts []

/-- The token count table described independently of the fold: the
distinct tokens in first-occurrence order, each with its number of
occurrences. -/
def tokenCountsSpec (bodies : List String) : List (String × Nat) :=
  (firstDedup (allTokens bodies)).map
    (fun w => (w, (allTokens bodies).count w))

theorem lookupCount_nil (u : String) : lookupCount [] u = 0 := rfl

theorem lookupCount_cons (k : String) (n : Nat) (rest : List (String × Nat))
    (u : String) :
    lookupCount ((k, n) :: rest) u = if k = u then n else lookupCount rest u := by
  by_cases h : k = u
  · subst h
    simp [lookupCount, List.find?]
  · have hb : (k == u) = false := by simp [h]
    simp [lookupCount, List.find?, hb, h]

theorem bumpWord_cons_self (k : String) (n : Nat) (rest : List (String × Nat)) :
    bumpWord ((k, n) :: rest) k = (k, n + 1) :: rest := by
  simp [bumpWord]

theorem bumpWord_cons_ne (k w : String) (n : Nat) (rest : List (String × Nat))
    (h : k ≠ w) : bumpWord ((k, n) :: rest) w = (k, n) :: bumpWord rest w := by
  simp [bumpWord, h]

theorem lookupCount_bump (acc : List (String × Nat)) (w u : String) :
    lookupCount (bumpWord acc w) u
      = if u = w then lookupCount acc u + 1 else lookupCount acc u := by
  induction acc with
  | nil =>
    by_cases h : u = w
    · subst h
      simp [bumpWord, lookupCount_cons, lookupCount_nil]
    · have h' : w ≠ u := fun hc => h hc.symm
      simp [bumpWord, lookupCount_cons, lookupCount_nil, h, h']
  | cons p rest ih =>
    obtain ⟨k, n⟩ := p
    by_cases hkw : k = w
    · subst hkw
      rw [bumpWord_cons_self, lookupCount_cons, lookupCount_cons]
      by_cases huk : k = u
      · subst huk
        simp
      · have huk' : u ≠ k := fun hc => huk hc.symm
        rw [if_neg huk, if_neg huk, if_neg huk']
    · rw [bumpWord_cons_ne k w n rest hkw, lookupCount_cons, lookupCount_cons]
      by_cases huk : k = u
      · subst huk
        rw [if_neg hkw]
        simp
      · rw [if_neg huk, if_neg huk]
        exact ih

theorem lookupCount_foldl (ts : List String) :
    ∀ (acc : List (String × Nat)) (u : String),
    lookupCount (ts.foldl bumpWord acc) u = lookupCount acc u + ts.count u := by
  induction ts with
  | nil =>
    intro acc u
    simp
  | cons w ts ih =>
    intro acc u
    rw [List.foldl_cons, ih (bumpWord acc w) u, lookupCount_bump]
    by_cases h : u = w
    · subst h
      simp [List.count_cons]
      omega
    · have hb : (u == w) = false := by simp [h]
      simp [List.count_cons, hb, h]

theorem keys_bump (acc : List (String × Nat)) (w : String) :
    (bumpWord acc w).map Prod.fst
      = if w ∈ acc.map Prod.fst then acc.map Prod.fst
        else acc.map Prod.fst ++ [w] := by
  induction acc with
  | nil => simp [bumpWord]
  | cons p rest ih =>
    obtain ⟨k, n⟩ := p
    by_cases hkw : k = w
    · subst hkw
      rw [bumpWord_cons_self]
      simp
    · rw [bumpWord_cons_ne _ _ _ _ hkw]
      have hwk : ¬ w = k := fun hc => hkw hc.symm
      by_cases hc : w ∈ rest.map Prod.fst
      · simp [hc, hwk, ih]
      · simp [hc, hwk, ih]

theorem firstDedupAux_congr : ∀ (ts s1 s2 : List String),
    (∀ w, w ∈ s1 ↔ w ∈ s2) →
    firstDedupAux ts s1 = firstDedupAux ts s2 := by
  intro ts
  induction ts with
  | nil => intro s1 s2 _; rfl
  | cons t ts ih =>
    intro s1 s2 h
    simp only [firstDedupAux]
    by_cases hc : t ∈ s2
    · rw [if_pos ((h t).mpr hc), if_pos hc]
      exact ih s1 s2 h
    · rw [if_neg (fun hm => hc ((h t).mp hm)), if_neg hc]
      rw [ih (t :: s1) (t :: s2) (fun u => by simp [h u])]

theorem keys_foldl : ∀ (ts : List String) (acc : List (String × Nat)),
    ((ts.foldl bumpWord acc).map Prod.fst)
      = acc.map Prod.fst ++ firstDedupAux ts (acc.map Prod.fst) := by
  intro ts
  induction ts with
  | nil =>
    intro acc
    simp [firstDedupAux]
  | cons w ts ih =>
    intro acc
    rw [List.foldl_cons, ih (bumpWord acc w), keys_bump]
    by_cases hc : w ∈ acc.map Prod.fst
    · rw [if_pos hc]
      simp only [firstDedupAux, hc, if_true]
    · rw [if_neg hc]
      simp only [firstDedupAux, hc, if_false]
      rw [firstDedupAux_congr ts (acc.map Prod.fst ++ [w]) (w :: acc.map Prod.fst)
        (fun u => by simp [or_comm])]
      simp

theorem firstDedupAux_spec : ∀ (ts seen : List String),
    (firstDedupAux ts seen).Nodup
    ∧ ∀ w ∈ firstDedupAux ts seen, w ∉ seen := by
  intro ts
  induction ts with
  | nil =>
    intro seen
    simp [firstDedupAux]
  | cons t ts ih =>
    intro seen
    simp only [firstDedupAux]
    by_cases hc : t ∈ seen
    · rw [if_pos hc]
      exact ih seen
    · rw [if_neg hc]
      constructor
      · rw [List.nodup_cons]
        refine ⟨?_, (ih (t :: seen)).1⟩
        intro hmem
        exact (ih (t :: seen)).2 t hmem (List.mem_cons_self t seen)
      · intro w hw
        rcases List.mem_cons.mp hw with rfl | hw'
        · exact hc
        · have h2 := (ih (t :: seen)).2 w hw'
          intro hws
          exact h2 (List.mem_cons_of_mem t hws)

theorem assoc_eq_of_nodup : ∀ (l : List (String × Nat)),
    ((l.map Prod.fst).Nodup) →
    l = (l.map Prod.fst).map (fun w => (w, lookupCount l w)) := by
  intro l
  induction l with
  | nil => intro _; rfl
  | cons p rest ih =>
    obtain ⟨k, n⟩ := p
    intro hnd
    rw [List.map_cons, List.nodup_cons] at hnd
    simp only [List.map_cons]
    congr 1
    · rw [lookupCount_cons, if_pos rfl]
    · have hcg : ∀ w ∈ rest.map Prod.fst,
          (w, lookupCount ((k, n) :: rest) w) = (w, lookupCount rest w) := by
        intro w hw
        have hkw : ¬ k = w := fun hc => hnd.1 (hc ▸ hw)
        rw [lookupCount_cons, if_neg hkw]
      rw [List.map_congr_left hcg, ← ih hnd.2]

/-- The `wordCount` object built by the fold is exactly the distinct
tokens in first-occurrence order, each with its occurrence count. -/
theorem wordCounts_eq_tokenCountsSpec (bodies : List String) :
    wordCounts bodies = tokenCountsSpec bodies := by
  have hkeys : (wordCounts bodies).map Prod.fst = firstDedup (allTokens bodies) := by
    have h := keys_foldl (allTokens bodies) []
    simpa [wordCounts, firstDedup] using h
  have hnd : ((wordCounts bodies).map Prod.fst).Nodup := by
    rw [hkeys]
    exact (firstDedupAux_spec (allTokens bodies) []).1
  have hcnt : ∀ u, lookupCount (wordCounts bodies) u = (allTokens bodies).count u := by
    intro u
    have h := lookupCount_foldl (allTokens bodies) [] u
    simpa [wordCounts, lookupCount_nil] using h
  calc wordCounts bodies
      = ((wordCounts bodies).map Prod.fst).map
          (fun w => (w, lookupCount (wordCounts bodies) w)) :=
        assoc_eq_of_nodup _ hnd
    _ = (firstDedup (allTokens bodies)).map
          (fun w => (w, (allTokens bodies).count w)) := by
        rw [hkeys]
        exact List.map_congr_left (fun w _ => by rw [hcnt w])
    _ = tokenCountsSpec bodies := rfl

theorem mem_insCountDesc (x y : String × Nat) (l : List (String × Nat)) :
    y ∈ insCountDesc x l ↔ y = x ∨ y ∈ l := by
  induction l with
  | nil => simp [insCountDesc]
  | cons z zs ih =>
    by_cases h : z.2 > x.2 <;> simp [insCountDesc, h, ih]
    tauto

theorem pairwise_insCountDesc (x : String × Nat) (l : List (String × Nat))
    (h : l.Pairwise (fun a b => b.2 ≤ a.2)) :
    (insCountDesc x l).Pairwise (fun a b => b.2 ≤ a.2) := by
  induction l with
  | nil => simp [insCountDesc]
  | cons z zs ih =>
    rw [List.pairwise_cons] at h
    by_cases hz : z.2 > x.2
    · show ((if z.2 > x.2 then z :: insCountDesc x zs else x :: z :: zs)).Pairwise _
      rw [if_pos hz, List.pairwise_cons]
      refine ⟨?_, ih h.2⟩
      intro y hy
      rcases (mem_insCountDesc x y zs).mp hy with rfl | hyz
      · omega
      · exact h.1 y hyz
    · show ((if z.2 > x.2 then z :: insCountDesc x zs else x :: z :: zs)).Pairwise _
      rw [if_neg hz, List.pairwise_cons]
      refine ⟨?_, List.pairwise_cons.mpr h⟩
      intro y hy
      rcases List.mem_cons.mp hy with rfl | hyz
      · omega
      · have := h.1 y hyz
        omega

theorem pairwise_sortCountDesc (l : List (String × Nat)) :
    (sortCountDesc l).Pairwise (fun a b => b.2 ≤ a.2) := by
  induction l with
  | nil => simp [sortCountDesc]
  | cons x xs ih => exact pairwise_insCountDesc x _ ih

/-- Claim C8 (amended): the Summary's keyTopics list is computed from
the summarized messages only, by lower-casing, stripping punctuation,
tokenizing on whitespace, dropping the fixed stop-word set and tokens
of length ≤ 2, counting token frequencies, and taking the 10 most
frequent tokens (the list has at most 10 entries, in non-increasing
count order), with frequency ties broken by the JS object enumeration
order of the count table: digit-string (array-index) tokens first in
ascending numeric order, then the remaining tokens in first-occurrence
order — not by first-occurrence order alone. -/
theorem c8_extractKeyTopics_spec (bodies : List String) :
    extractKeyTopics bodies
      = ((sortCountDesc (jsEntriesOrder (tokenCountsSpec bodies))).take 10).map
          Prod.fst
    ∧ (extractKeyTopics bodies).length ≤ 10
    ∧ (sortCountDesc (jsEntriesOrder (wordCounts bodies))).Pairwise
        (fun a b => b.2 ≤ a.2) := by
  refine ⟨by rw [extractKeyTopics, wordCounts_eq_tokenCountsSpec], ?_,
    pairwise_sortCountDesc _⟩
  simp only [extractKeyTopics, List.length_map, List.length_take]
  omega

end WhatsBot
